import Mathlib

set_option autoImplicit false

/-!
Shallow embedding of the zendesk_export_v2 pipeline core: the event vocabulary
(src/events/events.rs), the lifecycle monitor (src/models/app_state/app_state.rs),
the category service (src/models/categories/categories.rs), the fetch service
(src/models/fetcher/fetcher.rs), the file writer (src/models/file_writer/file_writer.rs)
and the name sanitizer (src/utils/utils.rs), together with theorems settling the
spec's claims about them.
-/

namespace ZendeskExport

/-! ## Data model (src/events/events.rs, src/models/categories/categories.rs) -/

/-- RequestUrl from events.rs. -/
structure RequestUrl where
  url : String
deriving DecidableEq

/-- Category from categories.rs: `{id: i64, name: String, url: String}`. -/
structure Category where
  id : Int
  name : String
  url : String
deriving DecidableEq

/-- CategoryDetail from categories.rs: the value stored in the id-keyed hash. -/
structure CategoryDetail where
  name : String
  url : String
deriving DecidableEq

/-- CategoriesResponse from categories.rs: one decoded page. -/
structure CategoriesResponse where
  categories : List Category
  next_page : Option String
deriving DecidableEq

/-- FetcherRequest from events.rs. -/
inductive FetcherRequest where
  | categories (r : RequestUrl)
deriving DecidableEq

/-- FetcherResponse from events.rs. -/
inductive FetcherResponse where
  | categories (res : CategoriesResponse)
  | fetchFailed (error : String)
deriving DecidableEq

/-- FileRequest from events.rs; image payload bytes are modelled as a list of naturals. -/
inductive FileRequest where
  | markdown (path : String) (data : String)
  | image (path : String) (data : List Nat)
deriving DecidableEq

/-- ActiveCount from events.rs. -/
inductive ActiveCount where
  | increment
  | decrement
deriving DecidableEq

/-- StateUpdate from events.rs. -/
inductive StateUpdate where
  | categories (a : ActiveCount)
  | fetcher (a : ActiveCount)
  | fileWriter (a : ActiveCount)
deriving DecidableEq

/-- EventType from events.rs: the only type flowing through the bus. -/
inductive EventType where
  | fetcherRequest (r : FetcherRequest)
  | fetcherResponse (r : FetcherResponse)
  | fileRequest (f : FileRequest)
  | updateState (s : StateUpdate)
  | shutdown
deriving DecidableEq

/-! ## Utils (src/utils/utils.rs) -/

/-- Embedding of Utils::sanitize_name (utils.rs lines 4-9):
`name.chars().filter(|c| c.is_alphanumeric() || *c == ' ' || *c == '-' || *c == '_')
     .map(|c| if c == ' ' \x7b '_' \x7d else \x7b c \x7d).collect()`.
Rust's `char::is_alphanumeric` is Unicode-aware; it is modelled here by
`Char.isAlphanum`, which agrees with it on the ASCII range. -/
def sanitize_name (name : String) : String :=
  String.mk ((name.data.filter
      (fun c => c.isAlphanum || c == ' ' || c == '-' || c == '_')).map
    (fun c => if c == ' ' then '_' else c))

/-- Embedding of Utils::create_front_matter (utils.rs lines 19-21). -/
def create_front_matter (title : String) : String :=
  "---\ntitle: \"" ++ title ++ "\"\n---\n\n"

/-- The filter predicate of sanitize_name, named for use in proofs. -/
def keepChar (c : Char) : Bool :=
  c.isAlphanum || c == ' ' || c == '-' || c == '_'

/-- The map step of sanitize_name, named for use in proofs. -/
def trChar (c : Char) : Char :=
  if c == ' ' then '_' else c

theorem sanitize_name_eq (s : String) :
    sanitize_name s = String.mk ((s.data.filter keepChar).map trChar) := rfl

/-- Character-by-character recursion following the spec's words: alphanumeric,
hyphen and underscore are retained, a space is retained as an underscore, and
every other character is dropped. Stated independently of `sanitize_name` so
that the two can be compared. -/
def sanitize_spec_chars : List Char → List Char
  | [] => []
  | c :: cs =>
    if c == ' ' then '_' :: sanitize_spec_chars cs
    else if c.isAlphanum || c == '-' || c == '_' then c :: sanitize_spec_chars cs
    else sanitize_spec_chars cs

/-- The spec's description of name sanitization, as a function on strings. -/
def sanitize_name_spec (s : String) : String :=
  String.mk (sanitize_spec_chars s.data)

theorem filter_map_eq_spec_chars (l : List Char) :
    (l.filter keepChar).map trChar = sanitize_spec_chars l := by
  induction l with
  | nil => rfl
  | cons c cs ih =>
    cases hA : c.isAlphanum <;> cases hS : (c == ' ') <;>
      cases hH : (c == '-') <;> cases hU : (c == '_') <;>
      simp [keepChar, trChar, sanitize_spec_chars, List.filter_cons, hA, hS, hH, hU, ih]

/-- C8. Name sanitization definition: sanitize_name retains exactly the
alphanumeric, space, hyphen and underscore characters in order, maps every
retained space to an underscore and drops all other characters (it coincides
with the spec's character-wise description `sanitize_name_spec`), and on the
spec's two examples: "Getting Started!" becomes "Getting_Started" and
"A/B Test" becomes "AB_Test". -/
theorem sanitize_name_characterization :
    (∀ s : String, sanitize_name s = sanitize_name_spec s) ∧
    sanitize_name "Getting Started!" = "Getting_Started" ∧
    sanitize_name "A/B Test" = "AB_Test" := by
  refine ⟨fun s => ?_, by decide, by decide⟩
  rw [sanitize_name_eq, sanitize_name_spec, filter_map_eq_spec_chars]

theorem keepChar_trChar (c : Char) (h : keepChar c = true) :
    keepChar (trChar c) = true ∧ trChar (trChar c) = trChar c := by
  by_cases hsp : c = ' '
  · subst hsp
    constructor
    · decide
    · decide
  · have htr : trChar c = c := by simp [trChar, hsp]
    rw [htr]
    exact ⟨h, htr⟩

theorem sanitize_chars_fixed (l : List Char) :
    ((((l.filter keepChar).map trChar).filter keepChar).map trChar) =
      (l.filter keepChar).map trChar := by
  induction l with
  | nil => rfl
  | cons c cs ih =>
    by_cases hk : keepChar c = true
    · obtain ⟨h1, h2⟩ := keepChar_trChar c hk
      simp [List.filter_cons, hk, h1, h2, ih]
    · simp only [Bool.not_eq_true] at hk
      simp [List.filter_cons, hk, ih]

/-- C9. Sanitization idempotence: applying sanitize_name twice gives the same
result as applying it once. -/
theorem sanitize_name_idempotent (s : String) :
    sanitize_name (sanitize_name s) = sanitize_name s := by
  rw [sanitize_name_eq s, sanitize_name_eq]
  show String.mk _ = _
  rw [sanitize_chars_fixed]

/-! ## Lifecycle monitor (src/models/app_state/app_state.rs) -/

/-- CurrentState from app_state.rs lines 6-16. -/
inductive CurrentState where
  | Initialized
  | Active
  | Inactive
deriving DecidableEq

/-- The modulus of `usize` / `AtomicUsize` arithmetic on a 64-bit target. -/
def USIZE : Nat := 2 ^ 64

/-- State from app_state.rs: one service's `\x7bactive_count: AtomicUsize,
current_state: Mutex<CurrentState>\x7d` record. -/
structure State where
  active_count : Nat
  current_state : CurrentState
deriving DecidableEq

/-- Embedding of AppState::update_service_state (app_state.rs lines 75-92).
`fetch_add`/`fetch_sub` on an `AtomicUsize` wrap modulo 2^64, and in a release
build the subsequent `+ 1` / `- 1` on the returned previous value also wraps,
so the decrement arm is addition of `USIZE - 1` modulo `USIZE`. The phase is
set to Active exactly when the new count is 1 and to Inactive exactly when the
new count is 0; otherwise it is left unchanged. -/
def update_service_state (service_state : State) (action : ActiveCount) : State :=
  match action with
  | .increment =>
    let current_count := (service_state.active_count + 1) % USIZE
    { active_count := current_count
      current_state :=
        if current_count == 1 then .Active else service_state.current_state }
  | .decrement =>
    let current_count := (service_state.active_count + (USIZE - 1)) % USIZE
    { active_count := current_count
      current_state :=
        if current_count == 0 then .Inactive else service_state.current_state }

/-- AppState from app_state.rs: the three tracked service records (the bus
endpoints carry no monitor state and are omitted). -/
structure AppState where
  categories : State
  fetcher : State
  file_writer : State
deriving DecidableEq

/-- AppState::new (app_state.rs lines 27-44): all counters zero, all phases
Initialized. -/
def AppState.new : AppState :=
  { categories := ⟨0, .Initialized⟩
    fetcher := ⟨0, .Initialized⟩
    file_writer := ⟨0, .Initialized⟩ }

/-- Embedding of AppState::check_all_services_inactive (app_state.rs lines
94-99): the conjunction reads only `categories` and `fetcher`; the
`file_writer` record is not consulted. -/
def check_all_services_inactive (a : AppState) : Bool :=
  a.categories.current_state == CurrentState.Inactive &&
    a.fetcher.current_state == CurrentState.Inactive

/-- Dispatch of one StateUpdate to the matching service record, as in the
match arms of monitor_state (app_state.rs lines 49-61). -/
def monitor_apply (a : AppState) (su : StateUpdate) : AppState :=
  match su with
  | .categories act => { a with categories := update_service_state a.categories act }
  | .fetcher act => { a with fetcher := update_service_state a.fetcher act }
  | .fileWriter act => { a with file_writer := update_service_state a.file_writer act }

/-- Outcome of one `broadcast::Receiver::recv()` call: `Ok(event)`,
`Err(RecvError::Lagged(n))` or `Err(RecvError::Closed)`. -/
inductive RecvOutcome where
  | ok (e : EventType)
  | lagged (n : Nat)
  | closed
deriving DecidableEq

/-- Embedding of AppState::monitor_state (app_state.rs lines 46-73) on a finite
receive trace. `while let Ok(update) = self.rx.recv().await` exits the loop on
any Err, so a lag fault or a closed channel halts the loop. A received
Shutdown breaks before the quiescence check; every other received event
(update or not) falls through to the check, which sends Shutdown whenever it
evaluates to true — there is no sent-already guard. Returns the final state,
the list of events this loop sent, and whether the loop exited. -/
def monitor_state : AppState → List RecvOutcome → AppState × List EventType × Bool
  | a, [] => (a, [], false)
  | a, .ok e :: rest =>
    match e with
    | .updateState su =>
      let a2 := monitor_apply a su
      let r := monitor_state a2 rest
      (r.1, (if check_all_services_inactive a2 then [EventType.shutdown] else []) ++ r.2.1,
        r.2.2)
    | .shutdown => (a, [], true)
    | _ =>
      let r := monitor_state a rest
      (r.1, (if check_all_services_inactive a then [EventType.shutdown] else []) ++ r.2.1,
        r.2.2)
  | a, .lagged _ :: _ => (a, [], true)
  | a, .closed :: _ => (a, [], true)

/-- The sequence of states at which monitor_state's quiescence check is
evaluated: one per processed event that does not end the loop. -/
def monitor_evals : AppState → List RecvOutcome → List AppState
  | _, [] => []
  | a, .ok e :: rest =>
    match e with
    | .updateState su => monitor_apply a su :: monitor_evals (monitor_apply a su) rest
    | .shutdown => []
    | _ => a :: monitor_evals a rest
  | _, .lagged _ :: _ => []
  | _, .closed :: _ => []

/-- Folding a list of deltas over one service's record, as the monitor does
when it processes that service's activity events in order. -/
def apply_deltas (s : State) (l : List ActiveCount) : State :=
  l.foldl update_service_state s

/-- A receive trace in which the file writer increments first (a write is in
flight) and then the fetcher and the categories service each complete one
increment/decrement pair. -/
def file_writer_active_trace : List RecvOutcome :=
  [.ok (.updateState (.fileWriter .increment)),
   .ok (.updateState (.fetcher .increment)),
   .ok (.updateState (.fetcher .decrement)),
   .ok (.updateState (.categories .increment)),
   .ok (.updateState (.categories .decrement))]

/-- C1. Quiescence check omits the FileWriter: running the monitor from its
initial state on `file_writer_active_trace` broadcasts Shutdown even though
the FileWriter record still has `active_count = 1` and phase Active at that
moment, because check_all_services_inactive reads only the categories and
fetcher records. Under the claim, no Shutdown may be sent here. -/
theorem shutdown_broadcast_ignores_file_writer :
    (monitor_state AppState.new file_writer_active_trace).2.1 = [EventType.shutdown] ∧
    (monitor_state AppState.new file_writer_active_trace).1.file_writer =
      ⟨1, CurrentState.Active⟩ ∧
    check_all_services_inactive (monitor_state AppState.new file_writer_active_trace).1 =
      true := by
  decide

/-- C3. Counter underflow is not rejected: a Decrement applied to a service
record whose count is already 0 is not detected — `fetch_sub` wraps the
`AtomicUsize`, leaving the counter at 2^64 - 1 (and in a debug build the
`- 1` on the returned value panics). The phase is untouched because the new
count is nonzero. -/
theorem decrement_at_zero_wraps :
    update_service_state ⟨0, CurrentState.Inactive⟩ ActiveCount.decrement =
      ⟨USIZE - 1, CurrentState.Inactive⟩ ∧
    USIZE - 1 = 18446744073709551615 := by
  decide

/-- A receive trace with two separate quiescence episodes: the fetcher and the
categories service go inactive (first quiescence), then the categories
service runs one more increment/decrement pair (second quiescence), all
delivered to the monitor before its own Shutdown broadcast reaches it. -/
def double_quiescence_trace : List RecvOutcome :=
  [.ok (.updateState (.fetcher .increment)),
   .ok (.updateState (.fetcher .decrement)),
   .ok (.updateState (.categories .increment)),
   .ok (.updateState (.categories .decrement)),
   .ok (.updateState (.categories .increment)),
   .ok (.updateState (.categories .decrement))]

/-- C6 counterexample. The monitor has no sent-already guard: on
`double_quiescence_trace` it broadcasts Shutdown twice, refuting the claim
that Shutdown is broadcast at most once per execution of the loop. -/
theorem shutdown_broadcast_twice :
    (monitor_state AppState.new double_quiescence_trace).2.1 =
      [EventType.shutdown, EventType.shutdown] := by
  decide

/-- C6 amended. The monitor broadcasts one Shutdown at every evaluation point
at which check_all_services_inactive holds, and nothing else: on any receive
trace, the events it sends are exactly one Shutdown per quiescent evaluation
(an evaluation happens after every processed event until the monitor consumes
a Shutdown or its receive fails). -/
theorem monitor_shutdown_per_quiescent_eval :
    ∀ (a : AppState) (l : List RecvOutcome),
      (monitor_state a l).2.1 =
        List.replicate ((monitor_evals a l).countP check_all_services_inactive)
          EventType.shutdown := by
  intro a l
  induction l generalizing a with
  | nil => rfl
  | cons o rest ih =>
    cases o with
    | ok e =>
      cases e with
      | updateState su =>
        simp only [monitor_state, monitor_evals, List.countP_cons]
        by_cases h : check_all_services_inactive (monitor_apply a su) = true
        · simp [h, ih, List.replicate_succ]
        · simp [h, ih]
      | shutdown => rfl
      | fetcherRequest r =>
        simp only [monitor_state, monitor_evals, List.countP_cons]
        by_cases h : check_all_services_inactive a = true
        · simp [h, ih, List.replicate_succ]
        · simp [h, ih]
      | fetcherResponse r =>
        simp only [monitor_state, monitor_evals, List.countP_cons]
        by_cases h : check_all_services_inactive a = true
        · simp [h, ih, List.replicate_succ]
        · simp [h, ih]
      | fileRequest f =>
        simp only [monitor_state, monitor_evals, List.countP_cons]
        by_cases h : check_all_services_inactive a = true
        · simp [h, ih, List.replicate_succ]
        · simp [h, ih]
    | lagged n => rfl
    | closed => rfl

/-- One update never moves a service's phase back to Initialized. -/
theorem update_preserves_ne_initialized (s : State) (a : ActiveCount)
    (h : s.current_state ≠ CurrentState.Initialized) :
    (update_service_state s a).current_state ≠ CurrentState.Initialized := by
  cases a with
  | increment =>
    simp only [update_service_state]
    split
    · simp
    · exact h
  | decrement =>
    simp only [update_service_state]
    split
    · simp
    · exact h

/-- C7. Phase transition discipline of update_service_state: an increment at
count 0 yields count 1 and phase Active (covering Initialized to Active on the
first increment and Inactive back to Active); a decrement at count 1 yields
count 0 and phase Inactive; a step whose result is a freshly Inactive phase is
necessarily a decrement that brought the count from 1 to 0 (counts below 2^64
never wrap); and once the phase has left Initialized, no sequence of further
deltas re-enters it. -/
theorem phase_transition_discipline :
    (∀ s : State, s.active_count = 0 →
      update_service_state s ActiveCount.increment = ⟨1, CurrentState.Active⟩) ∧
    (∀ s : State, s.active_count = 1 →
      update_service_state s ActiveCount.decrement = ⟨0, CurrentState.Inactive⟩) ∧
    (∀ (s : State) (a : ActiveCount), s.active_count < USIZE →
      (update_service_state s a).current_state = CurrentState.Inactive →
      s.current_state ≠ CurrentState.Inactive →
      a = ActiveCount.decrement ∧ (update_service_state s a).active_count = 0 ∧
        s.active_count = 1) ∧
    (∀ (s : State) (l : List ActiveCount), s.current_state ≠ CurrentState.Initialized →
      (apply_deltas s l).current_state ≠ CurrentState.Initialized) := by
  have hU : USIZE = 18446744073709551616 := by norm_num [USIZE]
  refine ⟨?_, ?_, ?_, ?_⟩
  · intro s h
    have h1 : (s.active_count + 1) % USIZE = 1 := by rw [h, hU]
    simp [update_service_state, h1]
  · intro s h
    have h0 : (s.active_count + (USIZE - 1)) % USIZE = 0 := by rw [h, hU]
    simp [update_service_state, h0]
  · intro s a hlt hInact hne
    cases a with
    | increment =>
      exfalso
      by_cases hone : (s.active_count + 1) % USIZE = 1
      · simp [update_service_state, hone] at hInact
      · simp [update_service_state, hone] at hInact
        exact hne hInact
    | decrement =>
      by_cases hzero : (s.active_count + (USIZE - 1)) % USIZE = 0
      · refine ⟨rfl, ?_, ?_⟩
        · simp [update_service_state, hzero]
        · rw [hU] at hzero hlt
          omega
      · exfalso
        simp [update_service_state, hzero] at hInact
        exact hne hInact
  · intro s l h
    induction l generalizing s with
    | nil => exact h
    | cons a rest ih =>
      exact ih (update_service_state s a) (update_preserves_ne_initialized s a h)

/-- C7 witness: the transition facts instantiated at concrete service records,
with every hypothesis discharged by evaluation. -/
theorem phase_transition_discipline_witness :
    update_service_state ⟨0, CurrentState.Initialized⟩ ActiveCount.increment =
      ⟨1, CurrentState.Active⟩ ∧
    update_service_state ⟨1, CurrentState.Active⟩ ActiveCount.decrement =
      ⟨0, CurrentState.Inactive⟩ ∧
    (ActiveCount.decrement = ActiveCount.decrement ∧
      (update_service_state ⟨1, CurrentState.Active⟩ ActiveCount.decrement).active_count = 0 ∧
      (1 : Nat) = 1) ∧
    (apply_deltas ⟨0, CurrentState.Active⟩ [ActiveCount.increment]).current_state ≠
      CurrentState.Initialized :=
  ⟨phase_transition_discipline.1 ⟨0, CurrentState.Initialized⟩ rfl,
   phase_transition_discipline.2.1 ⟨1, CurrentState.Active⟩ rfl,
   phase_transition_discipline.2.2.1 ⟨1, CurrentState.Active⟩ ActiveCount.decrement
     (by decide) (by decide) (by decide),
   phase_transition_discipline.2.2.2 ⟨0, CurrentState.Active⟩ [ActiveCount.increment]
     (by decide)⟩

/-! ## Category service (src/models/categories/categories.rs) -/

/-- The categories_hash field: a HashMap<i64, CategoryDetail>, modelled as an
association list with at most one entry per key. -/
def CategoriesHash : Type := List (Int × CategoryDetail)

instance : DecidableEq CategoriesHash :=
  inferInstanceAs (DecidableEq (List (Int × CategoryDetail)))

/-- HashMap::insert semantics: replace the value of an existing key, otherwise
add a new entry. -/
def hash_insert (m : CategoriesHash) (k : Int) (v : CategoryDetail) : CategoriesHash :=
  match m with
  | [] => [(k, v)]
  | (k2, v2) :: rest =>
    if k2 = k then (k, v) :: rest else (k2, v2) :: hash_insert rest k v

/-- HashMap lookup by key. -/
def hash_lookup (m : CategoriesHash) (k : Int) : Option CategoryDetail :=
  match m with
  | [] => none
  | (k2, v2) :: rest => if k2 = k then some v2 else hash_lookup rest k

/-- Embedding of the `par_extend` call in Categories::run (categories.rs lines
74-84): rayon's ParallelExtend for HashMap inserts the page's
(id, CategoryDetail) pairs, modelled as a left fold of insert in page order. -/
def par_extend (m : CategoriesHash) (cats : List Category) : CategoriesHash :=
  cats.foldl (fun acc cat => hash_insert acc cat.id ⟨cat.name, cat.url⟩) m

/-- Embedding of the receive loop of Categories::run (categories.rs lines
62-106) on a finite receive trace. On a successful FetcherResponse the service
sends Categories/Increment, par_extends its hash with the page's categories and
sends Categories/Decrement; it publishes no further FetcherRequest (the page's
next_page field is only printed) and no FileRequest. On FetchFailed it only
logs. `while let Ok` exits on a lag fault or a closed channel; Shutdown breaks
the loop. Returns the final hash, the events sent, and whether the loop
exited. -/
def categories_loop : CategoriesHash → List RecvOutcome → CategoriesHash × List EventType × Bool
  | h, [] => (h, [], false)
  | h, .ok e :: rest =>
    match e with
    | .fetcherResponse (.categories res) =>
      let h2 := par_extend h res.categories
      let r := categories_loop h2 rest
      (r.1,
        EventType.updateState (.categories .increment) ::
          EventType.updateState (.categories .decrement) :: r.2.1,
        r.2.2)
    | .fetcherResponse (.fetchFailed _) => categories_loop h rest
    | .shutdown => (h, [], true)
    | _ => categories_loop h rest
  | h, .lagged _ :: _ => (h, [], true)
  | h, .closed :: _ => (h, [], true)

/-- Embedding of Categories::run (categories.rs lines 54-107): publish the seed
FetcherRequest for "categories.json", then run the receive loop on an empty
hash. -/
def categories_run (stream : List RecvOutcome) : CategoriesHash × List EventType × Bool :=
  let r := categories_loop [] stream
  (r.1,
    EventType.fetcherRequest (.categories ⟨"categories.json"⟩) :: r.2.1,
    r.2.2)

/-- True on the events whose publication claim C2 is about: fetch requests and
file-write requests. -/
def is_dispatch_event (e : EventType) : Bool :=
  match e with
  | .fetcherRequest _ => true
  | .fileRequest _ => true
  | _ => false

/-- A one-category page whose next_page cursor is present. -/
def page_with_next : CategoriesResponse :=
  { categories := [{ id := 1, name := "Billing", url := "https://example.test/cat1" }],
    next_page := some "categories.json?page=2" }

/-- C2. The Category service performs no pagination fan-out: its receive loop
never publishes a FetcherRequest or a FileRequest (it only brackets the hash
insertion with Categories increment/decrement events), so a full run publishes
exactly one fetch request — the seed — regardless of the pages received. In
particular, on a successful page whose next_page is present and which carries
one category, the run's entire output is the seed request plus the
increment/decrement pair: no continuation fetch and no file write, where the
claim requires one of each. -/
theorem categories_no_pagination_no_file_requests :
    (∀ (h : CategoriesHash) (stream : List RecvOutcome),
      (categories_loop h stream).2.1.countP is_dispatch_event = 0) ∧
    (categories_run [RecvOutcome.ok (.fetcherResponse (.categories page_with_next))]).2.1 =
      [EventType.fetcherRequest (.categories ⟨"categories.json"⟩),
       EventType.updateState (.categories .increment),
       EventType.updateState (.categories .decrement)] ∧
    (categories_run [RecvOutcome.ok (.fetcherResponse (.categories page_with_next))]).2.1.countP
        is_dispatch_event = 1 := by
  refine ⟨?_, by decide, by decide⟩
  intro h stream
  induction stream generalizing h with
  | nil => rfl
  | cons o rest ih =>
    cases o with
    | ok e =>
      cases e with
      | fetcherResponse r =>
        cases r with
        | categories res =>
          simp [categories_loop, List.countP_cons, is_dispatch_event, ih]
        | fetchFailed err =>
          simp [categories_loop, ih]
      | shutdown => rfl
      | fetcherRequest r => simp [categories_loop, ih]
      | fileRequest f => simp [categories_loop, ih]
      | updateState su => simp [categories_loop, ih]
    | lagged n => rfl
    | closed => rfl

/-- The last category of a page with a given id, as the detail it stores:
within one par_extend the later duplicate overwrites the earlier one. -/
def page_last_detail (cats : List Category) (k : Int) : Option CategoryDetail :=
  match cats with
  | [] => none
  | c :: rest =>
    match page_last_detail rest k with
    | some d => some d
    | none => if c.id = k then some ⟨c.name, c.url⟩ else none

theorem hash_lookup_insert (m : CategoriesHash) (k : Int) (v : CategoryDetail) (k2 : Int) :
    hash_lookup (hash_insert m k v) k2 = if k = k2 then some v else hash_lookup m k2 := by
  induction m with
  | nil =>
    by_cases h2 : k = k2 <;> simp [hash_insert, hash_lookup, h2]
  | cons p rest ih =>
    obtain ⟨ka, va⟩ := p
    by_cases h : ka = k
    · subst h
      by_cases h2 : ka = k2 <;> simp [hash_insert, hash_lookup, h2]
    · by_cases h2 : ka = k2
      · subst h2
        have hk2 : ¬ k = ka := fun hh => h hh.symm
        simp [hash_insert, h, hash_lookup, hk2]
      · simp [hash_insert, h, hash_lookup, h2, ih]

theorem hash_lookup_par_extend (cats : List Category) (m : CategoriesHash) (k : Int) :
    hash_lookup (par_extend m cats) k =
      match page_last_detail cats k with
      | some d => some d
      | none => hash_lookup m k := by
  induction cats generalizing m with
  | nil => rfl
  | cons c rest ih =>
    show hash_lookup (par_extend (hash_insert m c.id ⟨c.name, c.url⟩) rest) k = _
    rw [ih]
    cases hp : page_last_detail rest k with
    | some d => simp [page_last_detail, hp]
    | none =>
      by_cases h : c.id = k
      · simp [page_last_detail, hp, hash_lookup_insert, h]
      · simp [page_last_detail, hp, hash_lookup_insert, h]

theorem par_extend_keeps_entry (m : CategoriesHash) (cats : List Category) (k : Int)
    (h : (hash_lookup m k).isSome = true) :
    (hash_lookup (par_extend m cats) k).isSome = true := by
  rw [hash_lookup_par_extend]
  cases hp : page_last_detail cats k with
  | some d => rfl
  | none => exact h

/-- C10. Hash accumulation in the Category service: lookups into the map left
by par_extend resolve to the page's last category with that id when the page
contains one (a same-id category replaces the earlier entry, whether it came
from an earlier page — the prior map — or earlier in the same page), and to
the prior map's entry otherwise; a FetchFailed response leaves the loop state
exactly as if the event had not been received (the map is unchanged); and an
entry present in the map is still present after the loop processes any receive
trace — the map accumulates for the lifetime of the service. -/
theorem categories_hash_accumulation :
    (∀ (m : CategoriesHash) (cats : List Category) (k : Int) (d : CategoryDetail),
      page_last_detail cats k = some d →
      hash_lookup (par_extend m cats) k = some d) ∧
    (∀ (m : CategoriesHash) (cats : List Category) (k : Int),
      page_last_detail cats k = none →
      hash_lookup (par_extend m cats) k = hash_lookup m k) ∧
    (∀ (h : CategoriesHash) (err : String) (rest : List RecvOutcome),
      categories_loop h (RecvOutcome.ok (.fetcherResponse (.fetchFailed err)) :: rest) =
        categories_loop h rest) ∧
    (∀ (h : CategoriesHash) (stream : List RecvOutcome) (k : Int),
      (hash_lookup h k).isSome = true →
      (hash_lookup (categories_loop h stream).1 k).isSome = true) := by
  refine ⟨?_, ?_, ?_, ?_⟩
  · intro m cats k d hp
    rw [hash_lookup_par_extend, hp]
  · intro m cats k hp
    rw [hash_lookup_par_extend, hp]
  · intro h err rest
    rfl
  · intro h stream k hk
    induction stream generalizing h with
    | nil => exact hk
    | cons o rest ih =>
      cases o with
      | ok e =>
        cases e with
        | fetcherResponse r =>
          cases r with
          | categories res =>
            have hk2 := par_extend_keeps_entry h res.categories k hk
            simpa [categories_loop] using ih (par_extend h res.categories) hk2
          | fetchFailed err => simpa [categories_loop] using ih h hk
        | shutdown => exact hk
        | fetcherRequest r => simpa [categories_loop] using ih h hk
        | fileRequest f => simpa [categories_loop] using ih h hk
        | updateState su => simpa [categories_loop] using ih h hk
      | lagged n => exact hk
      | closed => exact hk

/-- C10 witness: the accumulation facts instantiated on concrete maps, pages
and traces, all hypotheses discharged by evaluation. -/
theorem categories_hash_accumulation_witness :
    hash_lookup (par_extend []
        [⟨1, "Billing", "u1"⟩, ⟨1, "Payments", "u2"⟩]) 1 = some ⟨"Payments", "u2"⟩ ∧
    hash_lookup (par_extend [(2, ⟨"Old", "u0"⟩)] [⟨1, "Billing", "u1"⟩]) 2 =
      hash_lookup [(2, ⟨"Old", "u0"⟩)] 2 ∧
    categories_loop [(2, ⟨"Old", "u0"⟩)]
        [RecvOutcome.ok (.fetcherResponse (.fetchFailed "boom"))] =
      categories_loop [(2, ⟨"Old", "u0"⟩)] [] ∧
    (hash_lookup (categories_loop [(2, ⟨"Old", "u0"⟩)] [RecvOutcome.lagged 3]).1 2).isSome =
      true :=
  ⟨categories_hash_accumulation.1 [] [⟨1, "Billing", "u1"⟩, ⟨1, "Payments", "u2"⟩] 1
      ⟨"Payments", "u2"⟩ rfl,
   categories_hash_accumulation.2.1 [(2, ⟨"Old", "u0"⟩)] [⟨1, "Billing", "u1"⟩] 2 rfl,
   categories_hash_accumulation.2.2.1 [(2, ⟨"Old", "u0"⟩)] "boom" [],
   categories_hash_accumulation.2.2.2 [(2, ⟨"Old", "u0"⟩)] [RecvOutcome.lagged 3] 2 rfl⟩

/-! ## Fetch service (src/models/fetcher/fetcher.rs) -/

/-- Outcome of one dispatched fetch: the HTTP call failed, the body failed to
decode as a CategoriesResponse, or it decoded successfully. The HTTP call and
serde_json decoding are external collaborators; only their outcome matters to
the event flow. -/
inductive FetchOutcome where
  | transportErr (e : String)
  | decodeErr
  | decoded (page : CategoriesResponse)
deriving DecidableEq

/-- Embedding of one FetcherRequest's processing in Fetcher::run (fetcher.rs
lines 41-79): the Fetcher/Increment sent before `task::spawn`, then the
spawned task's sends in order. On decode success it publishes the
FetcherResponse::Categories event; on transport failure it publishes
FetcherResponse::FetchFailed with the formatted message; on decode failure it
only logs and publishes no response; in every case it ends by sending
Fetcher/Decrement. -/
def fetcher_process (outcome : FetchOutcome) : List EventType :=
  [EventType.updateState (.fetcher .increment)] ++
    (match outcome with
     | .decoded page => [EventType.fetcherResponse (.categories page)]
     | .decodeErr => []
     | .transportErr e =>
       [EventType.fetcherResponse (.fetchFailed ("Failed to fetch data: " ++ e))]) ++
    [EventType.updateState (.fetcher .decrement)]

/-- The FetcherResponse events within a published event list. -/
def response_events (l : List EventType) : List FetcherResponse :=
  l.filterMap fun e =>
    match e with
    | .fetcherResponse r => some r
    | _ => none

/-- The Fetcher-service activity deltas within a published event list. -/
def fetcher_deltas (l : List EventType) : List ActiveCount :=
  l.filterMap fun e =>
    match e with
    | .updateState (.fetcher a) => some a
    | _ => none

/-- C5 counterexample. On a decode failure the fetch service publishes no
FetcherResponse at all — its output is exactly the increment/decrement pair —
whereas the claim requires a FetchResponse err event on the decode-failure
path. -/
theorem fetcher_decode_failure_publishes_no_response :
    response_events (fetcher_process FetchOutcome.decodeErr) = [] ∧
    fetcher_process FetchOutcome.decodeErr =
      [EventType.updateState (.fetcher .increment),
       EventType.updateState (.fetcher .decrement)] := by
  decide

/-- C5 amended. Fetch unit-of-work events: every processed request emits
exactly one Fetcher/Increment followed by exactly one Fetcher/Decrement,
whatever the fetch outcome (so the counter balances on every exit path,
including decode failure); the published responses are
FetcherResponse::Categories on decode success and FetcherResponse::FetchFailed
with the formatted transport error on transport failure, while decode failure
publishes no response event (it is only logged). -/
theorem fetcher_unit_events :
    (∀ outcome : FetchOutcome,
      fetcher_deltas (fetcher_process outcome) =
        [ActiveCount.increment, ActiveCount.decrement]) ∧
    (∀ page : CategoriesResponse,
      response_events (fetcher_process (FetchOutcome.decoded page)) =
        [FetcherResponse.categories page]) ∧
    (∀ e : String,
      response_events (fetcher_process (FetchOutcome.transportErr e)) =
        [FetcherResponse.fetchFailed ("Failed to fetch data: " ++ e)]) ∧
    response_events (fetcher_process FetchOutcome.decodeErr) = [] := by
  refine ⟨fun outcome => ?_, fun page => rfl, fun e => rfl, rfl⟩
  cases outcome <;> rfl

/-! ## Service receive loops and what halts them -/

/-- Embedding of the receive loop of Fetcher::run (fetcher.rs lines 36-87) on a
finite receive trace, with the dispatched fetches' outcomes supplied as an
oracle list consumed one per request (each spawned task's sends are serialized
at its dispatch point). `while let Ok` exits on a lag fault or a closed
channel; Shutdown breaks the loop; every other event is ignored. -/
def fetcher_run : List FetchOutcome → List RecvOutcome → List EventType × Bool
  | _, [] => ([], false)
  | os, .ok e :: rest =>
    match e with
    | .fetcherRequest (.categories _) =>
      let r := fetcher_run os.tail rest
      (fetcher_process (os.headD FetchOutcome.decodeErr) ++ r.1, r.2)
    | .shutdown => ([], true)
    | _ => fetcher_run os rest
  | _, .lagged _ :: _ => ([], true)
  | _, .closed :: _ => ([], true)

/-- Embedding of the receive loop of FileWriter::run (file_writer.rs lines
23-52) on a finite receive trace: every FileRequest is bracketed by
FileWriter/Increment and FileWriter/Decrement; the write itself is external
I/O whose failure is only logged, so it does not change the event trace.
`while let Ok` exits on a lag fault or a closed channel; Shutdown breaks the
loop. -/
def file_writer_run : List RecvOutcome → List EventType × Bool
  | [] => ([], false)
  | .ok e :: rest =>
    match e with
    | .fileRequest _ =>
      let r := file_writer_run rest
      (EventType.updateState (.fileWriter .increment) ::
        EventType.updateState (.fileWriter .decrement) :: r.1, r.2)
    | .shutdown => ([], true)
    | _ => file_writer_run rest
  | .lagged _ :: _ => ([], true)
  | .closed :: _ => ([], true)

/-- True on the receive outcomes that end a `while let Ok(event) = recv()`
loop over the match arms of the four services: an observed Shutdown event, a
lag fault, and a closed channel. -/
def halting_outcome (o : RecvOutcome) : Bool :=
  match o with
  | .ok .shutdown => true
  | .ok _ => false
  | .lagged _ => true
  | .closed => true

/-- C4 counterexample. A bus lag fault alone halts the Categories receive
loop: on a trace consisting of a single Lagged outcome — which contains no
Shutdown event — the loop exits, where the claim requires a lag fault to be a
recoverable skip and only Shutdown to halt a service. -/
theorem lag_fault_halts_categories_loop :
    (categories_loop [] [RecvOutcome.lagged 1]).2.2 = true ∧
    ([RecvOutcome.lagged 1].contains (RecvOutcome.ok EventType.shutdown)) = false := by
  decide

/-- C4 amended. Each of the four service loops — Categories, Fetcher,
FileWriter and the Monitor — exits if and only if its receive trace contains a
halting outcome: an observed Shutdown event, a bus lag fault, or a closed
channel. In particular no FetchFailed response, decode failure or write
failure halts a loop (they are ordinary Ok events or external I/O), but a lag
fault does halt it rather than being skipped. -/
theorem service_loops_halt_iff :
    (∀ (h : CategoriesHash) (stream : List RecvOutcome),
      (categories_loop h stream).2.2 = stream.any halting_outcome) ∧
    (∀ (os : List FetchOutcome) (stream : List RecvOutcome),
      (fetcher_run os stream).2 = stream.any halting_outcome) ∧
    (∀ stream : List RecvOutcome,
      (file_writer_run stream).2 = stream.any halting_outcome) ∧
    (∀ (a : AppState) (stream : List RecvOutcome),
      (monitor_state a stream).2.2 = stream.any halting_outcome) := by
  refine ⟨?_, ?_, ?_, ?_⟩
  · intro h stream
    induction stream generalizing h with
    | nil => rfl
    | cons o rest ih =>
      cases o with
      | ok e =>
        cases e with
        | fetcherResponse r =>
          cases r with
          | categories res => simp [categories_loop, halting_outcome, ih]
          | fetchFailed err => simp [categories_loop, halting_outcome, ih]
        | shutdown => simp [categories_loop, halting_outcome]
        | fetcherRequest r => simp [categories_loop, halting_outcome, ih]
        | fileRequest f => simp [categories_loop, halting_outcome, ih]
        | updateState su => simp [categories_loop, halting_outcome, ih]
      | lagged n => simp [categories_loop, halting_outcome]
      | closed => simp [categories_loop, halting_outcome]
  · intro os stream
    induction stream generalizing os with
    | nil => rfl
    | cons o rest ih =>
      cases o with
      | ok e =>
        cases e with
        | fetcherRequest r =>
          cases r with
          | categories u => simp [fetcher_run, halting_outcome, ih]
        | shutdown => simp [fetcher_run, halting_outcome]
        | fetcherResponse r => simp [fetcher_run, halting_outcome, ih]
        | fileRequest f => simp [fetcher_run, halting_outcome, ih]
        | updateState su => simp [fetcher_run, halting_outcome, ih]
      | lagged n => simp [fetcher_run, halting_outcome]
      | closed => simp [fetcher_run, halting_outcome]
  · intro stream
    induction stream with
    | nil => rfl
    | cons o rest ih =>
      cases o with
      | ok e =>
        cases e with
        | fileRequest f => simp [file_writer_run, halting_outcome, ih]
        | shutdown => simp [file_writer_run, halting_outcome]
        | fetcherRequest r => simp [file_writer_run, halting_outcome, ih]
        | fetcherResponse r => simp [file_writer_run, halting_outcome, ih]
        | updateState su => simp [file_writer_run, halting_outcome, ih]
      | lagged n => simp [file_writer_run, halting_outcome]
      | closed => simp [file_writer_run, halting_outcome]
  · intro a stream
    induction stream generalizing a with
    | nil => rfl
    | cons o rest ih =>
      cases o with
      | ok e =>
        cases e with
        | updateState su => simp [monitor_state, halting_outcome, ih]
        | shutdown => simp [monitor_state, halting_outcome]
        | fetcherRequest r => simp [monitor_state, halting_outcome, ih]
        | fetcherResponse r => simp [monitor_state, halting_outcome, ih]
        | fileRequest f => simp [monitor_state, halting_outcome, ih]
      | lagged n => simp [monitor_state, halting_outcome]
      | closed => simp [monitor_state, halting_outcome]

end ZendeskExport
